import Mathlib

/-!
# Musify song library engine: model and verification

This development models the song library engine of the Musify playlist
organizer and the Python boundary wrappers of `music_playlist_gui_c.py`.
The repository ships only the Python GUI file; the engine itself lives in a
compiled C backend (`playlist_backend.c`) that is not part of the source
tree, so the engine operations (`add_song`, `search_song`, `play_song`,
`most_played`, `save_songs`, `load_songs`) are modelled from the
specification's description of their behavior.  The Python-side code that is
present (`c_most_played`, `add_song_ui`, the wrapper functions) is embedded
directly from the source.
-/

namespace Musify

/-- Modelled from the spec: the C backend `playlist_backend.c` is missing
from the source tree.  The Library is an ordered collection of song entries,
each a `name` paired with a `play_count`; insertion order is preserved. -/
abbrev Library := List (String × Nat)

/-- Sequence of entry names in insertion order. -/
def names (lib : Library) : List String := lib.map Prod.fst

/-- Modelled from the spec: `search(name)` is an exact-match existence check
against current entries; true iff an entry with that exact name exists. -/
def search_song (lib : Library) (name : String) : Bool :=
  lib.any (fun e => e.1 == name)

/-- Modelled from the spec: `add(name)` has no effect when an entry with
this exact name already exists; otherwise it appends a new entry with
`play_count = 0`, preserving insertion order. -/
def add_song (lib : Library) (name : String) : Library :=
  if search_song lib name then lib else lib ++ [(name, 0)]

/-- Modelled from the spec: `play(name)` increments the matched entry's
`play_count` by 1 when the entry exists and is a no-op otherwise; it never
affects ordering or other entries. -/
def play_song (lib : Library) (name : String) : Library :=
  lib.map (fun e => if e.1 = name then (e.1, e.2 + 1) else e)

/-- Greatest `play_count` occurring in the library (0 for an empty library). -/
def maxCount (lib : Library) : Nat :=
  lib.foldr (fun e m => max e.2 m) 0

/-- Modelled from the spec: `most_played()` returns the name of the entry
with the greatest `play_count`, ties broken by earliest insertion, and
`none` on an empty library. -/
def most_played (lib : Library) : Option String :=
  (lib.find? (fun e => e.2 == maxCount lib)).map Prod.fst

/-- Modelled from the spec: `save(path)` serializes all entries one per
line in insertion order; the persisted format records the song names only
(play counts are not persisted).  The file content is abstracted as the
list of its lines. -/
def save_songs (lib : Library) : List String := lib.map Prod.fst

/-- Modelled from the spec: `load(path)` reads the file line by line and
replaces the entire current library (never merges with `prior`); each line
becomes an entry, counts starting at 0. -/
def load_songs (prior : Library) (lines : List String) : Library :=
  lines.foldl add_song []

/-- Engine operations invocable from the outside, used to describe the set
of reachable library states. -/
inductive Op where
  | add : String → Op
  | play : String → Op
  | load : List String → Op

/-- One engine operation applied to a library state. -/
def step (lib : Library) : Op → Library
  | Op.add n => add_song lib n
  | Op.play n => play_song lib n
  | Op.load ls => load_songs lib ls

/-- Library state after a sequence of operations starting from the empty
library produced by `initSystem`. -/
def run (ops : List Op) : Library := ops.foldl step []

/-- Error taxonomy of the spec (section 7): distinct error kinds surfaced
to the caller by `save`/`load`. -/
inductive EngineError where
  | NotFoundError
  | ParseError
  | IOError
  | InvalidArgument
deriving DecidableEq

/-- File system abstraction: a path maps to the list of lines of the file
stored there, or to `none` when no file exists at that path. -/
abbrev FileSys := String → Option (List String)

/-- Modelled from the spec: `load(path)` fails with `NotFoundError` when the
path does not exist, leaving the library untouched; on success it replaces
the library with the file's entries. -/
def lib_load (fs : FileSys) (path : String) (lib : Library) :
    Except EngineError Unit × Library :=
  match fs path with
  | none => (Except.error EngineError.NotFoundError, lib)
  | some ls => (Except.ok (), load_songs lib ls)

/-- Modelled from the spec: `save(path)` fails with `IOError` when the path
is not writable, leaving the file system untouched; on success the complete
serialization is written atomically at `path`. -/
def lib_save (writable : Bool) (fs : FileSys) (path : String) (lib : Library) :
    Except EngineError Unit × FileSys :=
  if writable then
    (Except.ok (), fun p => if p = path then some (save_songs lib) else fs p)
  else
    (Except.error EngineError.IOError, fs)

/-- Abstract Python exception value. -/
structure PyExc where
  msg : String

/-- Body of `c_most_played` before the enclosing try/except: calls the
backend (`res = lib.most_played()`), returns `""` when the result is falsy
(a NULL pointer maps to `None`, an empty buffer to `some []`), otherwise
decodes the bytes as UTF-8 (`res.decode("utf-8")`).  The backend call and
the decoder are parameters: each either raises (`Except.error`) or returns. -/
def c_most_played_body (backend : Except PyExc (Option (List Nat)))
    (decode : List Nat → Except PyExc String) : Except PyExc String :=
  match backend with
  | Except.error e => Except.error e
  | Except.ok none => Except.ok ""
  | Except.ok (some res) =>
    if res.isEmpty then Except.ok "" else decode res

/-- The wrapper `c_most_played` from `music_playlist_gui_c.py`: the whole
body runs under `try`, and any exception is caught and turned into `""`. -/
def c_most_played (backend : Except PyExc (Option (List Nat)))
    (decode : List Nat → Except PyExc String) : String :=
  match c_most_played_body backend decode with
  | Except.error _ => ""
  | Except.ok s => s

/-- GUI-side state touched by `add_song_ui`: the engine library, the
persisted users database (username to stored playlist), the logged-in user
and the in-memory playlist of the current user. -/
structure GuiState where
  library : Library
  users : String → List String
  currentUser : Option String
  currentPlaylist : List String

/-- Python's `str.strip()`: removes leading and trailing whitespace. -/
def py_strip (s : String) : String :=
  String.mk (((s.data.dropWhile Char.isWhitespace).reverse.dropWhile Char.isWhitespace).reverse)

/-- The `add_song_ui` handler from `music_playlist_gui_c.py`: strips the
entry text, rejects an empty result, calls `c_add_song` on the engine, and,
when a user is logged in, appends the stripped name to `current_playlist`,
stores it in `users[current_user]["playlist"]` and saves the users file. -/
def add_song_ui (st : GuiState) (entry : String) : GuiState :=
  if py_strip entry = "" then st
  else
    match st.currentUser with
    | none => { st with library := add_song st.library (py_strip entry) }
    | some u =>
      { st with
          library := add_song st.library (py_strip entry)
          currentPlaylist := st.currentPlaylist ++ [py_strip entry]
          users := fun v =>
            if v = u then st.currentPlaylist ++ [py_strip entry] else st.users v }

/-! ## Basic lemmas about the engine operations -/

theorem search_song_iff (lib : Library) (name : String) :
    search_song lib name = true ↔ ∃ e ∈ lib, e.1 = name := by
  simp [search_song]

theorem search_song_eq_mem_names (lib : Library) (name : String) :
    search_song lib name = true ↔ name ∈ names lib := by
  simp [search_song, names]

theorem add_song_of_present (lib : Library) (name : String)
    (h : search_song lib name = true) : add_song lib name = lib := by
  simp [add_song, h]

theorem add_song_of_absent (lib : Library) (name : String)
    (h : search_song lib name = false) : add_song lib name = lib ++ [(name, 0)] := by
  simp [add_song, h]

theorem names_play_song (lib : Library) (name : String) :
    names (play_song lib name) = names lib := by
  unfold names play_song
  rw [List.map_map]
  apply List.map_congr_left
  intro e _
  by_cases h : e.1 = name <;> simp [h]

theorem nodup_names_add_song {lib : Library} (name : String)
    (h : (names lib).Nodup) : (names (add_song lib name)).Nodup := by
  by_cases hs : search_song lib name
  · rw [add_song_of_present lib name hs]; exact h
  · have hnm : name ∉ names lib := by
      intro hm
      rw [(search_song_eq_mem_names lib name).mpr hm] at hs
      exact hs rfl
    rw [add_song_of_absent lib name (by simpa using hs)]
    have : names (lib ++ [(name, 0)]) = names lib ++ [name] := by simp [names]
    rw [this]
    simp [List.nodup_append, h, hnm]

theorem nodup_names_foldl_add (lines : List String) :
    ∀ acc : Library, (names acc).Nodup → (names (lines.foldl add_song acc)).Nodup := by
  induction lines with
  | nil => intro acc h; simpa using h
  | cons n t ih =>
    intro acc h
    exact ih (add_song acc n) (nodup_names_add_song n h)

theorem nodup_names_step (lib : Library) (op : Op) (h : (names lib).Nodup) :
    (names (step lib op)).Nodup := by
  cases op with
  | add n => exact nodup_names_add_song n h
  | play n => rw [step, names_play_song]; exact h
  | load ls =>
    exact nodup_names_foldl_add ls [] (by simp [names])

theorem nodup_names_foldl_step (ops : List Op) :
    ∀ acc : Library, (names acc).Nodup → (names (ops.foldl step acc)).Nodup := by
  induction ops with
  | nil => intro acc h; simpa using h
  | cons op t ih =>
    intro acc h
    exact ih (step acc op) (nodup_names_step acc op h)

theorem nodup_names_run (ops : List Op) : (names (run ops)).Nodup :=
  nodup_names_foldl_step ops [] (by simp [names])

/-! ## Claim theorems -/

/-- C3: if an entry with the given name already exists, `add` leaves the
entire library unchanged (no count reset, no duplicate entry), and after any
sequence of operations starting from the empty library no two entries share
the same name. -/
theorem add_idempotent_and_names_nodup :
    (∀ (lib : Library) (name : String),
       (∃ e ∈ lib, e.1 = name) → add_song lib name = lib) ∧
    (∀ ops : List Op, (names (run ops)).Nodup) := by
  constructor
  · intro lib name h
    exact add_song_of_present lib name ((search_song_iff lib name).mpr h)
  · exact nodup_names_run

/-- Witness for C3 at a concrete library and operation sequence. -/
theorem add_idempotent_and_names_nodup_witness :
    add_song [("A", 3)] "A" = [("A", 3)] ∧
    (names (run [Op.add "A", Op.add "A", Op.play "A"])).Nodup :=
  ⟨add_idempotent_and_names_nodup.1 [("A", 3)] "A" ⟨("A", 3), by simp, rfl⟩,
   add_idempotent_and_names_nodup.2 [Op.add "A", Op.add "A", Op.play "A"]⟩

theorem search_add_song (lib : Library) (n q : String) :
    search_song (add_song lib n) q = true ↔ (search_song lib q = true ∨ q = n) := by
  by_cases hs : search_song lib n
  · rw [add_song_of_present lib n hs]
    constructor
    · exact Or.inl
    · rintro (h | rfl)
      · exact h
      · exact hs
  · rw [add_song_of_absent lib n (by simpa using hs)]
    simp only [search_song, List.any_append, Bool.or_eq_true, List.any_cons,
      List.any_nil, Bool.or_false, beq_iff_eq]
    exact or_congr Iff.rfl eq_comm

theorem search_foldl_add (adds : List String) :
    ∀ (acc : Library) (q : String),
      search_song (adds.foldl add_song acc) q = true ↔
        (search_song acc q = true ∨ q ∈ adds) := by
  induction adds with
  | nil => intro acc q; simp
  | cons n t ih =>
    intro acc q
    rw [List.foldl_cons, ih]
    rw [search_add_song]
    simp only [List.mem_cons]
    tauto

/-- C4: starting from the empty library, after a sequence of `add` calls,
`search(q)` is true iff `q` was one of the added names (exact match,
duplicates irrelevant). -/
theorem search_after_adds (adds : List String) (q : String) :
    search_song (run (adds.map Op.add)) q = true ↔ q ∈ adds := by
  unfold run
  rw [List.foldl_map]
  rw [show (fun (x : Library) (y : String) => step x (Op.add y)) = add_song from rfl]
  rw [search_foldl_add]
  simp [search_song]

/-- C5: `play(name)` is a complete no-op when no entry has the given name;
it never changes the name sequence (hence ordering and entry count); and
positionally, the entry at each index is incremented by exactly 1 when its
name matches and left unchanged otherwise. -/
theorem play_song_spec (lib : Library) (name : String) :
    (search_song lib name = false → play_song lib name = lib) ∧
    names (play_song lib name) = names lib ∧
    (∀ (i : Nat) (e : String × Nat), lib[i]? = some e →
      (play_song lib name)[i]? = some (if e.1 = name then (e.1, e.2 + 1) else e)) := by
  refine ⟨?_, names_play_song lib name, ?_⟩
  · intro h
    have hall : ∀ e ∈ lib, e.1 ≠ name := by
      intro e he heq
      have : search_song lib name = true := (search_song_iff lib name).mpr ⟨e, he, heq⟩
      rw [this] at h
      exact absurd h (by simp)
    unfold play_song
    have : lib.map (fun e => if e.1 = name then (e.1, e.2 + 1) else e) = lib.map id := by
      apply List.map_congr_left
      intro e he
      simp [hall e he]
    rw [this, List.map_id]
  · intro i e he
    unfold play_song
    rw [List.getElem?_map, he]
    rfl

/-- Witness for C5: `play` on an absent name is a no-op, and on a present
name increments exactly that entry. -/
theorem play_song_spec_witness :
    play_song [("A", 1)] "B" = [("A", 1)] ∧
    (play_song [("A", 1), ("B", 4)] "B")[1]? = some ("B", 5) := by
  constructor
  · exact (play_song_spec [("A", 1)] "B").1 (by decide)
  · have h := (play_song_spec [("A", 1), ("B", 4)] "B").2.2 1 ("B", 4) (by decide)
    simpa using h

/-! ## Lemmas for most_played -/

theorem maxCount_cons (a : String × Nat) (t : Library) :
    maxCount (a :: t) = max a.2 (maxCount t) := rfl

theorem le_maxCount (lib : Library) : ∀ e ∈ lib, e.2 ≤ maxCount lib := by
  induction lib with
  | nil => simp
  | cons a t ih =>
    intro e he
    rcases List.mem_cons.mp he with rfl | he
    · rw [maxCount_cons]; exact Nat.le_max_left _ _
    · rw [maxCount_cons]
      exact Nat.le_trans (ih e he) (Nat.le_max_right _ _)

theorem maxCount_attained (lib : Library) (h : lib ≠ []) :
    ∃ e ∈ lib, e.2 = maxCount lib := by
  induction lib with
  | nil => exact absurd rfl h
  | cons a t ih =>
    by_cases ht : t = []
    · subst ht
      exact ⟨a, by simp, by rw [maxCount_cons]; simp [maxCount]⟩
    · rcases ih ht with ⟨e, he, hemax⟩
      by_cases hle : maxCount t ≤ a.2
      · exact ⟨a, by simp, by rw [maxCount_cons]; omega⟩
      · refine ⟨e, List.mem_cons_of_mem a he, ?_⟩
        rw [maxCount_cons]
        omega

theorem find?_decomp {α : Type} (p : α → Bool) (l : List α) (x : α)
    (hx : x ∈ l) (hpx : p x = true) :
    ∃ pre e post, l = pre ++ e :: post ∧ p e = true ∧
      (∀ y ∈ pre, p y = false) ∧ l.find? p = some e := by
  induction l with
  | nil => cases hx
  | cons a t ih =>
    by_cases hpa : p a = true
    · exact ⟨[], a, t, rfl, hpa, by simp, by simp [List.find?, hpa]⟩
    · have hpa2 : p a = false := by simpa using hpa
      have hxt : x ∈ t := by
        rcases List.mem_cons.mp hx with rfl | h
        · rw [hpx] at hpa2; exact absurd hpa2 (by simp)
        · exact h
      rcases ih hxt with ⟨pre, e, post, hl, hpe, hpre, hfind⟩
      refine ⟨a :: pre, e, post, by rw [hl]; simp, hpe, ?_, ?_⟩
      · intro y hy
        rcases List.mem_cons.mp hy with rfl | h
        · exact hpa2
        · exact hpre y h
      · rw [List.find?_cons_of_neg _ (by simp [hpa2]), hfind]

/-- C2: `most_played()` is empty exactly on the empty library; `maxCount` is
an upper bound on all counts; and on a non-empty library the result is the
name of the earliest-inserted entry attaining the maximum count: every entry
before it has a strictly smaller count.  The model is a pure function of the
library, so repeated calls on unchanged state agree definitionally. -/
theorem most_played_spec (lib : Library) :
    (most_played lib = none ↔ lib = []) ∧
    (∀ e ∈ lib, e.2 ≤ maxCount lib) ∧
    (lib ≠ [] → ∃ pre e post,
      lib = pre ++ e :: post ∧
      most_played lib = some e.1 ∧
      e.2 = maxCount lib ∧
      ∀ y ∈ pre, y.2 < maxCount lib) := by
  have main : lib ≠ [] → ∃ pre e post,
      lib = pre ++ e :: post ∧
      most_played lib = some e.1 ∧
      e.2 = maxCount lib ∧
      ∀ y ∈ pre, y.2 < maxCount lib := by
    intro h
    rcases maxCount_attained lib h with ⟨x, hx, hxmax⟩
    rcases find?_decomp (fun e => e.2 == maxCount lib) lib x hx (by simpa using hxmax)
      with ⟨pre, e, post, hl, hpe, hpre, hfind⟩
    refine ⟨pre, e, post, hl, ?_, by simpa using hpe, ?_⟩
    · unfold most_played
      rw [hfind]
      rfl
    · intro y hy
      have hymem : y ∈ lib := by rw [hl]; exact List.mem_append_left _ hy
      have hyle : y.2 ≤ maxCount lib := le_maxCount lib y hymem
      have hyne : y.2 ≠ maxCount lib := by
        have := hpre y hy
        simpa using this
      omega
  refine ⟨?_, le_maxCount lib, main⟩
  constructor
  · intro hnone
    by_contra hne
    rcases main hne with ⟨pre, e, post, _, hsome, _, _⟩
    rw [hsome] at hnone
    exact Option.some_ne_none _ hnone
  · rintro rfl
    rfl

/-- Witness for C2 at a concrete tied library (both counts equal). -/
theorem most_played_spec_witness :
    ∃ pre e post, ([("A", 2), ("B", 2)] : Library) = pre ++ e :: post ∧
      most_played [("A", 2), ("B", 2)] = some e.1 ∧
      e.2 = maxCount [("A", 2), ("B", 2)] ∧
      ∀ y ∈ pre, y.2 < maxCount [("A", 2), ("B", 2)] :=
  (most_played_spec [("A", 2), ("B", 2)]).2.2 (by decide)

/-! ## Round-trip -/

theorem foldl_add_song_fresh (lines : List String) :
    ∀ acc : Library, lines.Nodup → (∀ n ∈ lines, search_song acc n = false) →
      lines.foldl add_song acc = acc ++ lines.map (fun n => (n, 0)) := by
  induction lines with
  | nil => intro acc _ _; simp
  | cons n t ih =>
    intro acc hnd hfresh
    have hs : search_song acc n = false := hfresh n (by simp)
    rw [List.foldl_cons, add_song_of_absent acc n hs]
    rw [ih (acc ++ [(n, 0)]) (List.nodup_cons.mp hnd).2 ?_]
    · simp
    · intro m hm
      have hmn : m ≠ n := by
        rintro rfl
        exact (List.nodup_cons.mp hnd).1 hm
      have h1 : search_song acc m = false := hfresh m (List.mem_cons_of_mem _ hm)
      simp only [search_song, List.any_append, List.any_cons, List.any_nil,
        Bool.or_false, Bool.or_eq_false_iff]
      refine ⟨by simpa [search_song] using h1, ?_⟩
      simp [hmn.symm]

/-- C1: saving a library (whose names are distinct, the library invariant)
and loading the file on a fresh engine reproduces exactly the same sequence
of names in the same insertion order; play counts are not persisted by the
format (the file records names only), so all loaded counts are 0. -/
theorem save_load_roundtrip (lib : Library) (h : (names lib).Nodup) :
    names (load_songs [] (save_songs lib)) = names lib ∧
    ∀ e ∈ load_songs [] (save_songs lib), e.2 = 0 := by
  have hsave : save_songs lib = names lib := rfl
  have key : load_songs [] (save_songs lib) = (names lib).map (fun n => (n, 0)) := by
    unfold load_songs
    rw [hsave, foldl_add_song_fresh (names lib) [] h (fun n _ => rfl)]
    simp
  constructor
  · rw [key]
    unfold names
    rw [List.map_map]
    simp
  · rw [key]
    intro e he
    rcases List.mem_map.mp he with ⟨n, _, rfl⟩
    rfl

/-- Witness for C1 at a concrete two-entry library. -/
theorem save_load_roundtrip_witness :
    names (load_songs [] (save_songs [("A", 2), ("B", 1)])) =
      names [("A", 2), ("B", 1)] :=
  (save_load_roundtrip [("A", 2), ("B", 1)] (by decide)).1

/-- C6: a successful `load` fully replaces the library: the result never
depends on the pre-existing entries (no merging), and loading an empty file
yields an empty library. -/
theorem load_replaces :
    (∀ (prior prior2 : Library) (lines : List String),
       load_songs prior lines = load_songs prior2 lines) ∧
    (∀ prior : Library, load_songs prior [] = []) :=
  ⟨fun _ _ _ => rfl, fun _ => rfl⟩

/-- C7: when the path does not exist, `load` fails with `NotFoundError` — a
kind distinct from the other engine errors — and the pre-existing library is
returned completely untouched. -/
theorem load_missing_path (fs : FileSys) (path : String) (lib : Library)
    (h : fs path = none) :
    lib_load fs path lib = (Except.error EngineError.NotFoundError, lib) ∧
    EngineError.NotFoundError ≠ EngineError.IOError ∧
    EngineError.NotFoundError ≠ EngineError.ParseError := by
  refine ⟨?_, by decide, by decide⟩
  unfold lib_load
  rw [h]

/-- Witness for C7: loading `missing.txt` from an empty file system. -/
theorem load_missing_path_witness :
    lib_load (fun _ => none) "missing.txt" [("A", 2)] =
      (Except.error EngineError.NotFoundError, [("A", 2)]) :=
  (load_missing_path (fun _ => none) "missing.txt" [("A", 2)] rfl).1

/-- C8: when the path is not writable, `save` fails with `IOError` and the
file system is completely unchanged (no partial file appears); when
writable, the file at the path is the complete serialization of the library
and every other path is untouched. -/
theorem save_unwritable (fs : FileSys) (path : String) (lib : Library) :
    lib_save false fs path lib = (Except.error EngineError.IOError, fs) ∧
    (∀ p, (lib_save true fs path lib).2 p =
      if p = path then some (save_songs lib) else fs p) ∧
    (lib_save true fs path lib).2 path = some (save_songs lib) := by
  refine ⟨rfl, fun p => rfl, ?_⟩
  simp [lib_save]

/-- C9: with a user logged in and a non-empty stripped name, `add_song_ui`
appends the stripped name to the current playlist and to the user's stored
playlist unconditionally (no membership check, so duplicates accumulate),
while the engine library is left unchanged whenever the name is already
present (the engine deduplicates). -/
theorem add_song_ui_appends (st : GuiState) (u entry : String)
    (hu : st.currentUser = some u) (hs : py_strip entry ≠ "") :
    (add_song_ui st entry).currentPlaylist = st.currentPlaylist ++ [py_strip entry] ∧
    (add_song_ui st entry).users u = st.currentPlaylist ++ [py_strip entry] ∧
    (search_song st.library (py_strip entry) = true →
      (add_song_ui st entry).library = st.library) := by
  unfold add_song_ui
  rw [if_neg hs, hu]
  refine ⟨rfl, ?_, ?_⟩
  · show (if u = u then st.currentPlaylist ++ [py_strip entry] else st.users u) =
      st.currentPlaylist ++ [py_strip entry]
    rw [if_pos rfl]
  · intro hpres
    show add_song st.library (py_strip entry) = st.library
    exact add_song_of_present _ _ hpres

/-- Witness for C9: adding a song already in the playlist and the library
duplicates it in the playlist but not in the library. -/
theorem add_song_ui_appends_witness :
    (add_song_ui
      { library := [("A", 0)], users := fun _ => ["A"],
        currentUser := some "u", currentPlaylist := ["A"] } "A").currentPlaylist
      = ["A", "A"] ∧
    (add_song_ui
      { library := [("A", 0)], users := fun _ => ["A"],
        currentUser := some "u", currentPlaylist := ["A"] } "A").library
      = [("A", 0)] := by
  have h := add_song_ui_appends
    { library := [("A", 0)], users := fun _ => ["A"],
      currentUser := some "u", currentPlaylist := ["A"] } "u" "A" rfl (by decide)
  refine ⟨?_, h.2.2 (by decide)⟩
  rw [h.1]
  decide

/-- C10: the wrapper `c_most_played` is total at the Python boundary: it
returns `""` when the backend call raises, when the backend returns a NULL
pointer (`None`) or an empty byte string, and when UTF-8 decoding raises;
in the remaining case it returns the decoded string. -/
theorem c_most_played_total (backend : Except PyExc (Option (List Nat)))
    (decode : List Nat → Except PyExc String) :
    (∀ e, backend = Except.error e → c_most_played backend decode = "") ∧
    (backend = Except.ok none → c_most_played backend decode = "") ∧
    (backend = Except.ok (some []) → c_most_played backend decode = "") ∧
    (∀ bs e, backend = Except.ok (some bs) → decode bs = Except.error e →
      c_most_played backend decode = "") ∧
    (∀ bs s, backend = Except.ok (some bs) → bs ≠ [] → decode bs = Except.ok s →
      c_most_played backend decode = s) := by
  refine ⟨?_, ?_, ?_, ?_, ?_⟩
  · rintro e rfl
    rfl
  · rintro rfl
    rfl
  · rintro rfl
    rfl
  · rintro bs e rfl hdec
    cases bs with
    | nil => rfl
    | cons b t => simp [c_most_played, c_most_played_body, hdec]
  · rintro bs s rfl hne hdec
    cases bs with
    | nil => exact absurd rfl hne
    | cons b t => simp [c_most_played, c_most_played_body, hdec]

/-- Witness for C10: a NULL backend result gives `""`; a successful byte
result decodes to the returned string. -/
theorem c_most_played_total_witness :
    c_most_played (Except.ok none) (fun _ => Except.ok "x") = "" ∧
    c_most_played (Except.ok (some [65])) (fun _ => Except.ok "A") = "A" :=
  ⟨(c_most_played_total (Except.ok none) (fun _ => Except.ok "x")).2.1 rfl,
   (c_most_played_total (Except.ok (some [65])) (fun _ => Except.ok "A")).2.2.2.2
     [65] "A" rfl (by decide) rfl⟩

end Musify
